import Mathlib

/-!
Shallow embedding of curconvert.py (Windows .cur/.ani cursor converter),
together with theorems checking the natural-language specification against it.

Byte buffers are modelled as `List Nat` (one entry per byte).  Python slicing
`data[a:b]` clamps at the end of the buffer, which `List.drop`/`List.take`
reproduce.  `struct.unpack` raises `struct.error` when the supplied slice is
shorter than the format requires; fallible operations are modelled in the
`Except String` monad, mirroring Python exceptions caught at the facade.
-/

namespace CurConvert

/-- A decoded RGBA pixel, as produced by the Python tuples `(r, g, b, a)`. -/
structure RGBA where
  r : Nat
  g : Nat
  b : Nat
  a : Nat
deriving DecidableEq, Repr

/-- An in-memory RGBA image (PIL `Image` in mode RGBA): width, height and the
row-major pixel grid. -/
structure Img where
  width : Nat
  height : Nat
  pixels : List (List RGBA)
deriving DecidableEq, Repr

/-- The external image codec (Pillow), treated as a trusted black box:
`decodePNG` models `Image.open` + RGBA conversion on a PNG payload,
`decodeBMP` models `Image.open` + `convert('RGBA')` on a BMP-wrapped DIB,
`resize` models `Image.resize(..., LANCZOS)`. -/
structure Codec where
  decodePNG : List Nat → Except String Img
  decodeBMP : List Nat → Except String Img
  resize : Img → Nat → Nat → Img

/-- Python slice `data[a:b]` (clamping at the end of the buffer). -/
def slice (data : List Nat) (a b : Nat) : List Nat :=
  (data.drop a).take (b - a)

/-- Little-endian value of a byte list (first byte is least significant). -/
def leNat : List Nat → Nat
  | [] => 0
  | byte :: rest => byte + 256 * leNat rest

/-- `struct.unpack` of an `n`-byte little-endian unsigned field at `off`:
fails (struct.error) unless all `n` bytes are present. -/
def unpackExact (data : List Nat) (off n : Nat) : Except String Nat :=
  if off + n ≤ data.length then .ok (leNat (slice data off (off + n)))
  else .error "struct.error"

/-- `struct.unpack('<B', ...)` of one byte read at `off`. -/
def unpackU8 (data : List Nat) (off : Nat) : Except String Nat :=
  unpackExact data off 1

/-- `struct.unpack('<H', ...)` at `off`. -/
def unpackU16 (data : List Nat) (off : Nat) : Except String Nat :=
  unpackExact data off 2

/-- `struct.unpack('<I', ...)` at `off`. -/
def unpackU32 (data : List Nat) (off : Nat) : Except String Nat :=
  unpackExact data off 4

/-- Reinterpret a 32-bit unsigned value as signed (`struct` format `<i`). -/
def toI32 (n : Nat) : Int :=
  if n < 2 ^ 31 then (n : Int) else (n : Int) - 2 ^ 32

/-- `struct.unpack('<i', ...)` at `off`. -/
def unpackI32 (data : List Nat) (off : Nat) : Except String Int := do
  let n ← unpackU32 data off
  .ok (toI32 n)

/-- Python indexing `data[i]`: raises IndexError when out of range. -/
def getByte (data : List Nat) (i : Nat) : Except String Nat :=
  if i < data.length then .ok (data.getD i 0) else .error "IndexError"

/-- The four little-endian bytes of `n` (`struct.pack('<I', n)` payload). -/
def packLE4 (n : Nat) : List Nat :=
  [n % 256, n / 256 % 256, n / 65536 % 256, n / 16777216 % 256]

/-- `struct.pack('<I', n)`: fails when `n` does not fit in 32 bits. -/
def packU32 (n : Nat) : Except String (List Nat) :=
  if n < 2 ^ 32 then .ok (packLE4 n) else .error "struct.error"

/-- Fail-fast effectful map, mirroring a Python `for` loop that appends one
result per iteration and propagates the first raised exception. -/
def mapME {α β : Type} (f : α → Except String β) : List α → Except String (List β)
  | [] => .ok []
  | x :: xs => do
    let y ← f x
    let ys ← mapME f xs
    .ok (y :: ys)

/-- `struct.unpack('BBBB', data[off:off+4])` on a stored B,G,R,A pixel,
already rearranged into the `(r, g, b, a)` tuple the Python code appends. -/
def bgraPixelAt (data : List Nat) (off : Nat) : Except String RGBA :=
  if off + 4 ≤ data.length then
    .ok ⟨data.getD (off + 2) 0, data.getD (off + 1) 0, data.getD off 0, data.getD (off + 3) 0⟩
  else .error "struct.error"

/-- `struct.unpack('BBB', data[off:off+3])` on a stored B,G,R pixel, returned
as the `(r, g, b, 255)` tuple the Python code appends. -/
def bgrPixelAt (data : List Nat) (off : Nat) : Except String RGBA :=
  if off + 3 ≤ data.length then
    .ok ⟨data.getD (off + 2) 0, data.getD (off + 1) 0, data.getD off 0, 255⟩
  else .error "struct.error"

/-- The AND-mask test of the 24-bit path: bit `7 - x % 8` of the mask byte at
`andOffset + (actualHeight - 1 - y) * andRowSize + x / 8`, read only when that
index is inside the buffer (the Python code guards the read the same way). -/
def andMaskBit (data : List Nat) (andOffset andRowSize actualHeight y x : Nat) : Bool :=
  let rowOffset := andOffset + (actualHeight - 1 - y) * andRowSize
  let byteIdx := x / 8
  let bitIdx := 7 - x % 8
  decide (rowOffset + byteIdx < data.length ∧
    (data.getD (rowOffset + byteIdx) 0) >>> bitIdx % 2 = 1)

/-- Second pass of the 24-bit path: set alpha to 0 wherever the AND-mask bit
is set (`pixels[y][x] = (r, g, b, 0)`). -/
def applyAndMask (data : List Nat) (andOffset andRowSize actualHeight w : Nat)
    (rows : List (List RGBA)) : List (List RGBA) :=
  (List.range actualHeight).map fun y =>
    (List.range w).map fun x =>
      let p := (rows.getD y []).getD x ⟨0, 0, 0, 0⟩
      if andMaskBit data andOffset andRowSize actualHeight y x then ⟨p.r, p.g, p.b, 0⟩ else p

/-- The placeholder image of the unsupported-depth fallback:
`Image.new('RGBA', (width, height), (255, 0, 255, 128))`. -/
def placeholderImg (width height : Nat) : Img :=
  ⟨width, height, List.replicate height (List.replicate width ⟨255, 0, 255, 128⟩)⟩

/-- `decode_bmp_cursor(data, width, height)`: decode a BITMAPINFOHEADER-prefixed
DIB cursor payload.  `width`/`height` are the directory-declared sizes, used
only by the unsupported-depth placeholder. -/
def decode_bmp_cursor (codec : Codec) (data : List Nat) (width height : Nat) :
    Except String Img := do
  let headerSize ← unpackU32 data 0
  let bmpWidth ← unpackI32 data 4
  let bmpHeight ← unpackI32 data 8
  let _planes ← unpackU16 data 12
  let bitCount ← unpackU16 data 14
  let _compression ← unpackU32 data 16
  let actualHeight := bmpHeight.natAbs / 2
  if bitCount = 32 then do
    let w := bmpWidth.toNat
    let rows ← mapME (fun y =>
        mapME (fun x => bgraPixelAt data (headerSize + (actualHeight - 1 - y) * (w * 4) + x * 4))
          (List.range w))
      (List.range actualHeight)
    if bmpWidth < 0 then .error "ValueError" else .ok ⟨w, actualHeight, rows⟩
  else if bitCount = 24 then do
    let w := bmpWidth.toNat
    let rowSize := (w * 3 + 3) / 4 * 4
    let rows ← mapME (fun y =>
        mapME (fun x => bgrPixelAt data (headerSize + (actualHeight - 1 - y) * rowSize + x * 3))
          (List.range w))
      (List.range actualHeight)
    let andRowSize := (w + 31) / 32 * 4
    let andOffset := headerSize + rowSize * actualHeight
    let masked := applyAndMask data andOffset andRowSize actualHeight w rows
    if bmpWidth < 0 then .error "ValueError" else .ok ⟨w, actualHeight, masked⟩
  else do
    let sizeField ← packU32 (data.length + 14)
    let offField ← packU32 (14 + headerSize)
    match codec.decodeBMP ([66, 77] ++ sizeField ++ [0, 0, 0, 0] ++ offField ++ data) with
    | .ok img => .ok img
    | .error _ => .ok (placeholderImg width height)

/-- One parsed ICONDIRENTRY (width/height already with `0 → 256` applied). -/
structure Entry where
  width : Nat
  height : Nat
  colors : Nat
  hotspotX : Nat
  hotspotY : Nat
  size : Nat
  offset : Nat
deriving DecidableEq, Repr

/-- The selection key: `e['width'] * e['height']`. -/
def entryArea (e : Entry) : Nat := e.width * e.height

/-- Running-maximum step of Python's `max(..., key=...)`: the current best is
replaced only on a strictly greater key, so the first maximum wins. -/
def pyMaxFrom (key : Entry → Nat) (best : Entry) : List Entry → Entry
  | [] => best
  | e :: es => pyMaxFrom key (if key e > key best then e else best) es

/-- Python `max(entries, key=...)`; `none` models the `ValueError` raised on an
empty sequence. -/
def pyMax (key : Entry → Nat) : List Entry → Option Entry
  | [] => none
  | e :: es => some (pyMaxFrom key e es)

/-- The PNG signature checked against the first 8 payload bytes. -/
def pngSig : List Nat := [137, 80, 78, 71, 13, 10, 26, 10]

/-- One ICONDIRENTRY read field by field at `off` (the sequential 1/2/4-byte
`f.read` + `struct.unpack` calls of the Python loop). -/
def parse_cur_entry (data : List Nat) (off : Nat) : Except String Entry := do
  let w ← unpackU8 data off
  let h ← unpackU8 data (off + 1)
  let colors ← unpackU8 data (off + 2)
  let _reserved ← unpackU8 data (off + 3)
  let hx ← unpackU16 data (off + 4)
  let hy ← unpackU16 data (off + 6)
  let size ← unpackU32 data (off + 8)
  let offset ← unpackU32 data (off + 12)
  .ok ⟨if w = 0 then 256 else w, if h = 0 then 256 else h, colors, hx, hy, size, offset⟩

/-- The decode result assembled by the converter.  On failure only `success`
and `error` are meaningful (the Python failure dict carries only those keys). -/
structure DecodeResult where
  success : Bool
  width : Nat
  height : Nat
  hotspotX : Nat
  hotspotY : Nat
  frameCount : Nat
  frameDuration : ℚ
  image : Img
  error : Option String
deriving DecidableEq, Repr

/-- `parse_cur_file`: parse a `.cur` byte buffer (ICONDIR header, entry table,
best-entry selection, payload decode). -/
def parse_cur_file (codec : Codec) (data : List Nat) : Except String DecodeResult :=
  if data.length < 6 then .error "struct.error"
  else
    let filetype := leNat (slice data 2 4)
    let count := leNat (slice data 4 6)
    if filetype ≠ 2 then .error "Not a cursor file"
    else if count < 1 then .error "No cursor images in file"
    else do
      let entries ← mapME (fun i => parse_cur_entry data (6 + 16 * i)) (List.range count)
      match pyMax entryArea entries with
      | none => .error "max() arg is an empty sequence"
      | some best => do
        let imageData := slice data best.offset (best.offset + best.size)
        let img ←
          if imageData.take 8 = pngSig then codec.decodePNG imageData
          else decode_bmp_cursor codec imageData best.width best.height
        .ok { success := true, width := img.width, height := img.height,
              hotspotX := best.hotspotX, hotspotY := best.hotspotY,
              frameCount := 1, frameDuration := 0, image := img, error := none }

/-- One RIFF chunk: 4-byte id, declared payload length, sliced payload. -/
structure Chunk where
  id : List Nat
  size : Nat
  payload : List Nat
deriving DecidableEq, Repr

/-- Fuel-indexed RIFF chunk walk (the `while pos < len(data) - 8` loops of
`parse_ani_file` and `parse_fram_list`): read the 8-byte header, slice the
payload, advance by `8 + size` plus one padding byte when `size` is odd.
The fuel only bounds the recursion; `riffChunksFrom` supplies enough. -/
def riffChunksAux (data : List Nat) : Nat → Nat → List Chunk
  | 0, _ => []
  | fuel + 1, pos =>
    if pos + 8 < data.length then
      let sz := leNat (slice data (pos + 4) (pos + 8))
      { id := slice data pos (pos + 4), size := sz,
        payload := slice data (pos + 8) (pos + 8 + sz) } ::
        riffChunksAux data fuel (pos + 8 + sz + (if sz % 2 = 1 then 1 else 0))
    else []

/-- All chunks visited by the walk starting at `pos`. -/
def riffChunksFrom (data : List Nat) (pos : Nat) : List Chunk :=
  riffChunksAux data (data.length + 1) pos

/-- Parsed `anih` chunk fields. -/
structure Anih where
  headerSize : Nat
  numFrames : Nat
  numSteps : Nat
  width : Nat
  height : Nat
  bitCount : Nat
  numPlanes : Nat
  displayRate : Nat
  flags : Nat
deriving DecidableEq, Repr

/-- `parse_anih_chunk`: `none` models the empty (falsy) dict returned when the
payload is shorter than 36 bytes. -/
def parse_anih_chunk (data : List Nat) : Option Anih :=
  if data.length < 36 then none
  else some ⟨leNat (slice data 0 4), leNat (slice data 4 8), leNat (slice data 8 12),
    leNat (slice data 12 16), leNat (slice data 16 20), leNat (slice data 20 24),
    leNat (slice data 24 28), leNat (slice data 28 32), leNat (slice data 32 36)⟩

/-- `parse_rate_chunk`: one little-endian uint32 per expected frame, keeping
only the entries whose 4 bytes fit inside the chunk. -/
def parse_rate_chunk (data : List Nat) (numFrames : Nat) : List Nat :=
  (List.range numFrames).filterMap fun i =>
    if i * 4 + 4 ≤ data.length then some (leNat (slice data (i * 4) (i * 4 + 4))) else none

/-- One decoded ANI frame (dimensions are those of the decoded image). -/
structure Frame where
  width : Nat
  height : Nat
  hotspotX : Nat
  hotspotY : Nat
  image : Img
deriving DecidableEq, Repr

/-- Chunk id constants. -/
def anihId : List Nat := [97, 110, 105, 104]

/-- `b'rate'`. -/
def rateId : List Nat := [114, 97, 116, 101]

/-- `b'LIST'`. -/
def listId : List Nat := [76, 73, 83, 84]

/-- `b'fram'`. -/
def framId : List Nat := [102, 114, 97, 109]

/-- `b'icon'`. -/
def iconId : List Nat := [105, 99, 111, 110]

/-- `parse_icon_chunk`: parse one embedded ICO/CUR payload.  `.ok none` models
the Python `return None` paths (dropped frame); `.error` models exceptions
raised inside the function (IndexError on `data[6]`, struct.error on short
unpacks, and errors from the image decode), which abort the caller. -/
def parse_icon_chunk (codec : Codec) (data : List Nat) : Except String (Option Frame) :=
  if data.length < 6 then .ok none
  else
    let filetype := leNat (slice data 2 4)
    let count := leNat (slice data 4 6)
    if ¬(filetype = 1 ∨ filetype = 2) ∨ count < 1 then .ok none
    else do
      let w6 ← getByte data 6
      let h7 ← getByte data 7
      let width := if w6 = 0 then 256 else w6
      let height := if h7 = 0 then 256 else h7
      let hx ← unpackU16 data 10
      let hy ← unpackU16 data 12
      let size ← unpackU32 data 14
      let offset ← unpackU32 data 18
      if offset + size > data.length then .ok none
      else do
        let imageData := slice data offset (offset + size)
        let img ←
          if imageData.take 8 = pngSig then codec.decodePNG imageData
          else decode_bmp_cursor codec imageData width height
        .ok (some ⟨img.width, img.height, hx, hy, img⟩)

/-- `parse_fram_list`: walk the nested chunk list, parse every `icon` chunk,
keep the successfully parsed frames and drop the `None` results. -/
def parse_fram_list (codec : Codec) (data : List Nat) : Except String (List Frame) := do
  let opts ← mapME
    (fun c => if c.id = iconId then parse_icon_chunk codec c.payload else .ok none)
    (riffChunksFrom data 0)
  .ok (opts.filterMap id)

/-- The mutable state of the top-level chunk loop of `parse_ani_file`:
`anih_data`, `rate_data`, `frames`.  `rate = some []` is distinct from `none`
only syntactically — both are falsy in the duration test, as in Python. -/
structure AniState where
  anih : Option Anih
  rate : Option (List Nat)
  frames : List Frame
deriving DecidableEq, Repr

/-- The initial loop state (`anih_data = None`, `rate_data = None`, `frames = []`). -/
def aniState0 : AniState := ⟨none, none, []⟩

/-- One iteration of the top-level chunk loop. -/
def processChunk (codec : Codec) (st : AniState) (c : Chunk) : Except String AniState :=
  if c.id = anihId then .ok { st with anih := parse_anih_chunk c.payload }
  else if c.id = rateId then
    .ok { st with rate := some (parse_rate_chunk c.payload
      (match st.anih with | some a => a.numFrames | none => 0)) }
  else if c.id = listId then
    if c.payload.take 4 = framId then do
      let fs ← parse_fram_list codec (c.payload.drop 4)
      .ok { st with frames := fs }
    else .ok st
  else .ok st

/-- The whole top-level chunk loop. -/
def processChunks (codec : Codec) : AniState → List Chunk → Except String AniState
  | st, [] => .ok st
  | st, c :: cs => do
    let st' ← processChunk codec st c
    processChunks codec st' cs

/-- Everything `parse_ani_file` does after the chunk loop: the empty-frames
check, `anih` synthesis, duration resolution and vertical sprite composition. -/
def assembleAni (codec : Codec) (st : AniState) : Except String DecodeResult :=
  match st.frames with
  | [] => .error "No frames found in ANI file"
  | first :: _ =>
    let anih := st.anih.getD
      ⟨0, st.frames.length, st.frames.length, 0, 0, 0, 0, 10, 0⟩
    let rates := st.rate.getD []
    let frameDuration : ℚ :=
      if rates.length ≠ 0 then ((rates.sum : ℚ) / (rates.length : ℚ)) / 60
      else (anih.displayRate : ℚ) / 60
    let width := first.width
    let height := first.height
    let sheet : Img :=
      ⟨width, height * st.frames.length,
        (st.frames.map fun fr =>
          (if fr.image.width ≠ width ∨ fr.image.height ≠ height then
            codec.resize fr.image width height
          else fr.image).pixels).flatten⟩
    .ok { success := true, width := width, height := height,
          hotspotX := first.hotspotX, hotspotY := first.hotspotY,
          frameCount := st.frames.length, frameDuration := frameDuration,
          image := sheet, error := none }

/-- `b'RIFF'`. -/
def riffId : List Nat := [82, 73, 70, 70]

/-- `b'ACON'`. -/
def aconId : List Nat := [65, 67, 79, 78]

/-- `parse_ani_file`: parse a `.ani` byte buffer. -/
def parse_ani_file (codec : Codec) (data : List Nat) : Except String DecodeResult :=
  if slice data 0 4 ≠ riffId then .error "Not a valid RIFF file"
  else if slice data 8 12 ≠ aconId then .error "Not an animated cursor file"
  else do
    let st ← processChunks codec aniState0 (riffChunksFrom data 12)
    assembleAni codec st

/-- The declared kind of the input, as dispatched on the file extension. -/
inductive Kind where
  | cur
  | ani
deriving DecidableEq, Repr

/-- The failure dict `{'success': False, 'error': msg}`. -/
def failResult (msg : String) : DecodeResult :=
  { success := false, width := 0, height := 0, hotspotX := 0, hotspotY := 0,
    frameCount := 0, frameDuration := 0, image := ⟨0, 0, []⟩, error := some msg }

/-- `convert_file`: the decode facade.  Any exception raised inside the
pipeline is caught here (`except Exception as e`) and converted into a
failure result. -/
def convert_file (codec : Codec) (kind : Kind) (data : List Nat) : DecodeResult :=
  match (match kind with
         | Kind.cur => parse_cur_file codec data
         | Kind.ani => parse_ani_file codec data) with
  | .ok r => r
  | .error e => failResult e

/-- Whether an `Except` computation finished without raising. -/
def exceptIsOk {ε α : Type} : Except ε α → Bool
  | .ok _ => true
  | .error _ => false

/-- Scan of a top-level chunk list checking that no `rate` chunk is processed
after a valid (≥ 36 byte) `anih` chunk; the flag carries whether a valid
`anih` has been seen so far. -/
def noRateAfterValidAnih : List Chunk → Bool → Bool
  | [], _ => true
  | c :: cs, seen =>
    if c.id = anihId then noRateAfterValidAnih cs (parse_anih_chunk c.payload).isSome
    else if c.id = rateId then !seen && noRateAfterValidAnih cs seen
    else noRateAfterValidAnih cs seen

end CurConvert

deriving instance DecidableEq for Except

namespace CurConvert

/-- A codec whose external decodes always fail and whose resize is a stub;
concrete witness inputs below never reach the external codec (or never reach
`resize`), so any choice is equally faithful. -/
def codec0 : Codec :=
  ⟨fun _ => .error "png codec", fun _ => .error "bmp codec", fun _ w h => ⟨w, h, []⟩⟩

/-- A minimal 32-bit DIB payload: 20-byte header (headerSize 20, width 1,
height 2, planes 1, bitCount 32, compression 0) and one B,G,R,A pixel. -/
def dib32Sample : List Nat :=
  [20, 0, 0, 0, 1, 0, 0, 0, 2, 0, 0, 0, 1, 0, 32, 0, 0, 0, 0, 0] ++ [9, 8, 7, 6]

/-- A complete well-formed 46-byte CUR payload embedding `dib32Sample`. -/
def iconGood : List Nat :=
  [0, 0, 2, 0, 1, 0] ++ [1, 1, 0, 0, 0, 0, 0, 0, 24, 0, 0, 0, 22, 0, 0, 0] ++ dib32Sample

/-- A `fram` list body holding a single well-formed `icon` chunk. -/
def framGood : List Nat := iconId ++ [46, 0, 0, 0] ++ iconGood

/-- A well-formed one-frame ANI file with no `anih` and no `rate` chunk. -/
def aniGood : List Nat :=
  riffId ++ [0, 0, 0, 0] ++ aconId ++ listId ++ [58, 0, 0, 0] ++ framId ++ framGood

/-- An ANI file whose `fram` list holds one well-formed `icon` chunk followed
by a 6-byte `icon` chunk (valid type/count but no directory entry): parsing
the second chunk evaluates `data[6]` and raises IndexError. -/
def aniBad : List Nat :=
  riffId ++ [0, 0, 0, 0] ++ aconId ++ listId ++ [72, 0, 0, 0] ++ framId ++ framGood ++
    iconId ++ [6, 0, 0, 0] ++ [0, 0, 2, 0, 1, 0]

/-- A 36-byte `anih` payload with numFrames = numSteps = 3, displayRate 10. -/
def anihPayload3 : List Nat :=
  [36, 0, 0, 0, 3, 0, 0, 0, 3, 0, 0, 0, 0, 0, 0, 0, 0, 0, 0, 0,
   0, 0, 0, 0, 0, 0, 0, 0, 10, 0, 0, 0, 0, 0, 0, 0]

/-- A three-frame ANI file with a valid `anih` chunk followed by a `rate`
chunk `[6, 6, 6]` and three copies of the well-formed `icon` chunk. -/
def aniRate3 : List Nat :=
  riffId ++ [0, 0, 0, 0] ++ aconId ++
    anihId ++ [36, 0, 0, 0] ++ anihPayload3 ++
    rateId ++ [12, 0, 0, 0] ++ [6, 0, 0, 0, 6, 0, 0, 0, 6, 0, 0, 0] ++
    listId ++ [166, 0, 0, 0] ++ framId ++ framGood ++ framGood ++ framGood

/-- A 36-byte `anih` payload with numFrames = numSteps = 1, displayRate 25. -/
def anihPayload25 : List Nat :=
  [36, 0, 0, 0, 1, 0, 0, 0, 1, 0, 0, 0, 0, 0, 0, 0, 0, 0, 0, 0,
   0, 0, 0, 0, 0, 0, 0, 0, 25, 0, 0, 0, 0, 0, 0, 0]

/-- A one-frame ANI file whose `rate` chunk precedes its valid `anih` chunk
(displayRate 25). -/
def aniRateFirst : List Nat :=
  riffId ++ [0, 0, 0, 0] ++ aconId ++
    rateId ++ [4, 0, 0, 0] ++ [6, 0, 0, 0] ++
    anihId ++ [36, 0, 0, 0] ++ anihPayload25 ++
    listId ++ [58, 0, 0, 0] ++ framId ++ framGood

/-- A `.cur` file whose single directory entry declares size 100 at offset 22
(offset + size = 122, far beyond the 46-byte file) while the bytes that are
actually present at offset 22 form a decodable 32-bit DIB. -/
def curOverflow : List Nat :=
  [0, 0, 2, 0, 1, 0] ++ [1, 1, 0, 0, 0, 0, 0, 0, 100, 0, 0, 0, 22, 0, 0, 0] ++ dib32Sample

/-- Eight bytes forming a complete chunk header (`icon`, length 0) with no
byte after it. -/
def hdr8 : List Nat := iconId ++ [0, 0, 0, 0]

/-- Nine bytes forming a chunk header (`icon`, length 1) plus its payload. -/
def hdr9 : List Nat := iconId ++ [1, 0, 0, 0] ++ [7]

/-- A minimal 24-bit DIB payload: 20-byte header (width 1, height 2, bitCount
24), one padded color row `B,G,R,pad`, one AND-mask row with the bit for
pixel (0, 0) set. -/
def dib24Sample : List Nat :=
  [20, 0, 0, 0, 1, 0, 0, 0, 2, 0, 0, 0, 1, 0, 24, 0, 0, 0, 0, 0] ++
    [9, 8, 7, 0] ++ [128, 0, 0, 0]

/-- A 20-byte DIB header with bitCount 0, triggering the fallback path. -/
def dibOddSample : List Nat :=
  [20, 0, 0, 0, 1, 0, 0, 0, 2, 0, 0, 0, 1, 0, 0, 0, 0, 0, 0, 0]

/-- The three-entry table of the specification's selection example. -/
def entriesExample : List Entry :=
  [⟨16, 16, 0, 0, 0, 0, 0⟩, ⟨32, 32, 0, 0, 0, 0, 0⟩, ⟨48, 48, 0, 0, 0, 0, 0⟩]

/-! ### General helper lemmas -/

lemma ok_bind {α β : Type} (a : α) (f : α → Except String β) :
    (Except.ok a : Except String α) >>= f = f a := rfl

lemma bind_ok {α β : Type} {x : Except String α} {f : α → Except String β} {b : β}
    (h : x >>= f = .ok b) : ∃ a, x = .ok a ∧ f a = .ok b := by
  cases x with
  | ok a => exact ⟨a, rfl, h⟩
  | error e => exact absurd h (by simp [Bind.bind, Except.bind])

lemma mapME_ok {α β : Type} {f : α → Except String β} {g : α → β} :
    ∀ {l : List α}, (∀ a ∈ l, f a = .ok (g a)) → mapME f l = .ok (l.map g)
  | [], _ => rfl
  | x :: xs, h => by
    have hx : f x = .ok (g x) := h x (by simp)
    have hxs : mapME f xs = .ok (xs.map g) := mapME_ok fun a ha => h a (by simp [ha])
    simp [mapME, hx, hxs, ok_bind, List.map]

lemma getD_map_range {α : Type} (f : Nat → α) {n i : Nat} (h : i < n) (d : α) :
    ((List.range n).map f).getD i d = f i := by
  rw [List.getD_eq_getElem?_getD, List.getElem?_map, List.getElem?_range h]
  rfl

/-! ### The RIFF chunk walk: fuel irrelevance and the step equation -/

lemma riffChunksAux_stop {data : List Nat} {pos : Nat} (h : ¬ pos + 8 < data.length) :
    ∀ fuel, riffChunksAux data fuel pos = []
  | 0 => rfl
  | fuel + 1 => by simp [riffChunksAux, h]

lemma riffChunksAux_fuel {data : List Nat} :
    ∀ {f1 f2 pos : Nat}, data.length - pos ≤ f1 → data.length - pos ≤ f2 →
      riffChunksAux data f1 pos = riffChunksAux data f2 pos := by
  intro f1
  induction f1 with
  | zero =>
    intro f2 pos h1 _
    have hstop : ¬ pos + 8 < data.length := by omega
    rw [riffChunksAux_stop hstop, riffChunksAux_stop hstop]
  | succ g1 ih =>
    intro f2 pos h1 h2
    by_cases hc : pos + 8 < data.length
    · cases f2 with
      | zero => omega
      | succ g2 =>
        simp only [riffChunksAux, hc, if_true]
        refine congrArg _ (ih ?_ ?_) <;> split <;> omega
    · rw [riffChunksAux_stop hc, riffChunksAux_stop hc]

lemma riffChunksFrom_step (data : List Nat) (pos : Nat) :
    riffChunksFrom data pos =
      if pos + 8 < data.length then
        { id := slice data pos (pos + 4),
          size := leNat (slice data (pos + 4) (pos + 8)),
          payload := slice data (pos + 8)
            (pos + 8 + leNat (slice data (pos + 4) (pos + 8))) } ::
          riffChunksFrom data (pos + 8 + leNat (slice data (pos + 4) (pos + 8)) +
            (if leNat (slice data (pos + 4) (pos + 8)) % 2 = 1 then 1 else 0))
      else [] := by
  by_cases hc : pos + 8 < data.length
  · rw [if_pos hc]
    show riffChunksAux data (data.length + 1) pos = _
    simp only [riffChunksAux, hc, if_true]
    exact congrArg _
      (riffChunksAux_fuel (Nat.sub_le _ _) (le_trans (Nat.sub_le _ _) (Nat.le_succ _)))
  · rw [if_neg hc]
    exact riffChunksAux_stop hc _

/-! ### Shape of successful parser results -/

lemma parse_cur_ok {codec : Codec} {data : List Nat} {r : DecodeResult}
    (h : parse_cur_file codec data = .ok r) : r.success = true ∧ r.error = none := by
  unfold parse_cur_file at h
  split at h
  · exact absurd h (by simp)
  · simp only [] at h
    split at h
    · exact absurd h (by simp)
    · split at h
      · exact absurd h (by simp)
      · obtain ⟨entries, -, h⟩ := bind_ok h
        split at h
        · exact absurd h (by simp)
        · split at h
          · obtain ⟨img, -, h⟩ := bind_ok h
            cases h
            exact ⟨rfl, rfl⟩
          · obtain ⟨img, -, h⟩ := bind_ok h
            cases h
            exact ⟨rfl, rfl⟩

lemma assembleAni_ok {codec : Codec} {st : AniState} {r : DecodeResult}
    (h : assembleAni codec st = .ok r) : r.success = true ∧ r.error = none := by
  unfold assembleAni at h
  split at h
  · exact absurd h (by simp)
  · cases h
    exact ⟨rfl, rfl⟩

lemma parse_ani_inv {codec : Codec} {data : List Nat} {r : DecodeResult}
    (h : parse_ani_file codec data = .ok r) :
    ∃ st, processChunks codec aniState0 (riffChunksFrom data 12) = .ok st ∧
      assembleAni codec st = .ok r := by
  unfold parse_ani_file at h
  split at h
  · exact absurd h (by simp)
  · split at h
    · exact absurd h (by simp)
    · exact bind_ok h

lemma assemble_frameDuration {codec : Codec} {st : AniState} {r : DecodeResult}
    (h : assembleAni codec st = .ok r) :
    r.frameDuration =
      match st.rate.getD [] with
      | [] => ((st.anih.elim 10 Anih.displayRate : Nat) : ℚ) / 60
      | rate0 :: rest =>
        ((((rate0 :: rest).sum : Nat) : ℚ) / (((rate0 :: rest).length : Nat) : ℚ)) / 60 := by
  unfold assembleAni at h
  split at h
  · exact absurd h (by simp)
  · cases h
    cases hr : st.rate.getD [] with
    | nil => simp only [hr]; cases ha : st.anih <;> simp [ha, Option.getD, Option.elim]
    | cons rate0 rest => simp [hr]

/-! ### Claim theorems -/

/-- C1: for every input byte buffer and kind (cur or ani), the decode facade
returns a well-formed `DecodeResult`: every error raised anywhere in the
pipeline is caught at `convert_file` and converted into a result with
`success = false` and an error message, and every successful parse yields
`success = true` with no error; no lower-level error escapes. -/
theorem facade_always_returns_wellformed_result (codec : Codec) (kind : Kind)
    (data : List Nat) :
    ((convert_file codec kind data).success = true ∧
      (convert_file codec kind data).error = none) ∨
    ((convert_file codec kind data).success = false ∧
      (convert_file codec kind data).error ≠ none) := by
  cases kind with
  | cur =>
    cases hp : parse_cur_file codec data with
    | ok r =>
      simp only [convert_file, hp]
      exact Or.inl (parse_cur_ok hp)
    | error e =>
      simp only [convert_file, hp]
      exact Or.inr ⟨rfl, by simp [failResult]⟩
  | ani =>
    cases hp : parse_ani_file codec data with
    | ok r =>
      obtain ⟨st, -, ha⟩ := parse_ani_inv hp
      simp only [convert_file, hp]
      exact Or.inl (assembleAni_ok ha)
    | error e =>
      simp only [convert_file, hp]
      exact Or.inr ⟨rfl, by simp [failResult]⟩

lemma pyMaxFrom_spec (key : Entry → Nat) :
    ∀ (es : List Entry) (b : Entry),
      (pyMaxFrom key b es = b ∧ ∀ a ∈ es, key a ≤ key b) ∨
      (key b < key (pyMaxFrom key b es) ∧
        ∃ l1 l2, es = l1 ++ pyMaxFrom key b es :: l2 ∧
          (∀ a ∈ l1, key a < key (pyMaxFrom key b es)) ∧
          ∀ a ∈ es, key a ≤ key (pyMaxFrom key b es)) := by
  intro es
  induction es with
  | nil => intro b; left; exact ⟨rfl, by simp⟩
  | cons e tl ih =>
    intro b
    by_cases hgt : key b < key e
    · have hstep : pyMaxFrom key b (e :: tl) = pyMaxFrom key e tl := by
        show pyMaxFrom key (if key e > key b then e else b) tl = pyMaxFrom key e tl
        rw [if_pos hgt]
      rcases ih e with ⟨heq, hle⟩ | ⟨hlt, l1, l2, hsplit, hl1, hall⟩
      · right
        rw [hstep, heq]
        refine ⟨hgt, [], tl, rfl, by simp, ?_⟩
        intro a ha
        rcases List.mem_cons.mp ha with rfl | ha
        · exact le_refl _
        · exact hle a ha
      · right
        rw [hstep]
        refine ⟨lt_trans hgt hlt, e :: l1, l2,
          by simp only [List.cons_append]; exact congrArg _ hsplit, ?_, ?_⟩
        · intro a ha
          rcases List.mem_cons.mp ha with rfl | ha
          · exact hlt
          · exact hl1 a ha
        · intro a ha
          rcases List.mem_cons.mp ha with rfl | ha
          · exact le_of_lt hlt
          · exact hall a ha
    · have hstep : pyMaxFrom key b (e :: tl) = pyMaxFrom key b tl := by
        show pyMaxFrom key (if key e > key b then e else b) tl = pyMaxFrom key b tl
        rw [if_neg hgt]
      rcases ih b with ⟨heq, hle⟩ | ⟨hlt, l1, l2, hsplit, hl1, hall⟩
      · left
        rw [hstep, heq]
        refine ⟨rfl, ?_⟩
        intro a ha
        rcases List.mem_cons.mp ha with rfl | ha
        · exact le_of_not_lt hgt
        · exact hle a ha
      · right
        rw [hstep]
        refine ⟨hlt, e :: l1, l2,
          by simp only [List.cons_append]; exact congrArg _ hsplit, ?_, ?_⟩
        · intro a ha
          rcases List.mem_cons.mp ha with rfl | ha
          · exact lt_of_le_of_lt (le_of_not_lt hgt) hlt
          · exact hl1 a ha
        · intro a ha
          rcases List.mem_cons.mp ha with rfl | ha
          · exact le_trans (le_of_not_lt hgt) (le_of_lt hlt)
          · exact hall a ha

/-- C7: the entry selected from a `.cur` top-level directory (via Python's
`max(entries, key=width*height)`, modelled by `pyMax entryArea`) is an entry
of maximal area, and it is the first entry attaining that maximum: every
earlier entry has strictly smaller area and every entry has area at most the
selected one. -/
theorem cur_selects_first_max_area (es : List Entry) (e : Entry)
    (h : pyMax entryArea es = some e) :
    ∃ l1 l2, es = l1 ++ e :: l2 ∧ (∀ a ∈ l1, entryArea a < entryArea e) ∧
      ∀ a ∈ es, entryArea a ≤ entryArea e := by
  cases es with
  | nil => exact absurd h (by simp [pyMax])
  | cons e0 tl =>
    have he : pyMaxFrom entryArea e0 tl = e := by
      have h' := h
      simp only [pyMax, Option.some.injEq] at h'
      exact h'
    rcases pyMaxFrom_spec entryArea tl e0 with ⟨heq, hle⟩ | ⟨hlt, l1, l2, hsplit, hl1, hall⟩
    · rw [he] at heq
      subst heq
      refine ⟨[], tl, by simp, by simp, ?_⟩
      intro a ha
      rcases List.mem_cons.mp ha with rfl | ha
      · exact le_refl _
      · exact hle a ha
    · rw [he] at hlt hsplit hl1 hall
      refine ⟨e0 :: l1, l2, by simp [hsplit], ?_, ?_⟩
      · intro a ha
        rcases List.mem_cons.mp ha with rfl | ha
        · exact hlt
        · exact hl1 a ha
      · intro a ha
        rcases List.mem_cons.mp ha with rfl | ha
        · exact le_of_lt hlt
        · exact hall a ha

/-- Witness for C7 at the specification's example table
`[(16,16), (32,32), (48,48)]`: the `(48,48)` entry is selected. -/
theorem cur_selects_first_max_area_witness :
    pyMax entryArea entriesExample = some ⟨48, 48, 0, 0, 0, 0, 0⟩ ∧
    ∃ l1 l2, entriesExample = l1 ++ (⟨48, 48, 0, 0, 0, 0, 0⟩ : Entry) :: l2 ∧
      (∀ a ∈ l1, entryArea a < entryArea (⟨48, 48, 0, 0, 0, 0, 0⟩ : Entry)) ∧
      ∀ a ∈ entriesExample, entryArea a ≤ entryArea (⟨48, 48, 0, 0, 0, 0, 0⟩ : Entry) :=
  ⟨by decide, cur_selects_first_max_area entriesExample _ (by decide)⟩

/-- C8 (amended): each RIFF walk step reads the 8-byte (id, length) header,
slices `length` payload bytes and advances by `8 + length` plus one padding
byte when `length` is odd; iteration stops as soon as 8 or fewer bytes
remain, i.e. a chunk is visited only when more than 8 bytes remain at its
start. -/
theorem riff_walk_step (data : List Nat) (pos : Nat) :
    (data.length ≤ pos + 8 → riffChunksFrom data pos = []) ∧
    (pos + 8 < data.length →
      riffChunksFrom data pos =
        { id := slice data pos (pos + 4),
          size := leNat (slice data (pos + 4) (pos + 8)),
          payload := slice data (pos + 8)
            (pos + 8 + leNat (slice data (pos + 4) (pos + 8))) } ::
          riffChunksFrom data (pos + 8 + leNat (slice data (pos + 4) (pos + 8)) +
            (if leNat (slice data (pos + 4) (pos + 8)) % 2 = 1 then 1 else 0))) := by
  constructor
  · intro hle
    rw [riffChunksFrom_step, if_neg (by omega)]
  · intro hlt
    rw [riffChunksFrom_step, if_pos hlt]

/-- Witness for C8 (amended) at a 9-byte buffer `icon`-header + length 1 +
one payload byte: the chunk is visited, with payload `[7]`. -/
theorem riff_walk_step_witness :
    riffChunksFrom hdr9 0 =
      { id := slice hdr9 0 (0 + 4),
        size := leNat (slice hdr9 (0 + 4) (0 + 8)),
        payload := slice hdr9 (0 + 8) (0 + 8 + leNat (slice hdr9 (0 + 4) (0 + 8))) } ::
        riffChunksFrom hdr9 (0 + 8 + leNat (slice hdr9 (0 + 4) (0 + 8)) +
          (if leNat (slice hdr9 (0 + 4) (0 + 8)) % 2 = 1 then 1 else 0)) :=
  (riff_walk_step hdr9 0).2 (by decide)

/-- C8 counterexample: `hdr8` is an 8-byte buffer whose first (and only)
chunk header fits entirely within the remaining buffer (exactly 8 bytes
remain at position 0, not fewer than 8), yet the walk visits no chunk:
the loop condition `pos < len - 8` already stops at 8 remaining bytes. -/
theorem riff_walk_stops_at_eight_cex :
    hdr8.length = 0 + 8 ∧ riffChunksFrom hdr8 0 = [] := by decide

/-- C9 (amended, icon-chunk half): inside an ANI `icon` chunk whose directory
fields are readable and whose type/count are valid, an entry with
`payloadOffset + payloadSize` exceeding the chunk payload makes
`parse_icon_chunk` drop the frame (`.ok none`) — no error is raised and no
payload slice is returned. -/
theorem icon_chunk_overflow_dropped (codec : Codec) (data : List Nat)
    (hlen : 22 ≤ data.length)
    (htype : leNat (slice data 2 4) = 1 ∨ leNat (slice data 2 4) = 2)
    (hcount : 1 ≤ leNat (slice data 4 6))
    (hover : data.length < leNat (slice data 18 22) + leNat (slice data 14 18)) :
    parse_icon_chunk codec data = .ok none := by
  have h6 : getByte data 6 = .ok (data.getD 6 0) := by
    simp only [getByte, if_pos (show 6 < data.length by omega)]
  have h7 : getByte data 7 = .ok (data.getD 7 0) := by
    simp only [getByte, if_pos (show 7 < data.length by omega)]
  have h10 : unpackU16 data 10 = .ok (leNat (slice data 10 12)) := by
    simp only [unpackU16, unpackExact, if_pos (show 10 + 2 ≤ data.length by omega)]
  have h12 : unpackU16 data 12 = .ok (leNat (slice data 12 14)) := by
    simp only [unpackU16, unpackExact, if_pos (show 12 + 2 ≤ data.length by omega)]
  have h14 : unpackU32 data 14 = .ok (leNat (slice data 14 18)) := by
    simp only [unpackU32, unpackExact, if_pos (show 14 + 4 ≤ data.length by omega)]
  have h18 : unpackU32 data 18 = .ok (leNat (slice data 18 22)) := by
    simp only [unpackU32, unpackExact, if_pos (show 18 + 4 ≤ data.length by omega)]
  unfold parse_icon_chunk
  rw [if_neg (show ¬ data.length < 6 by omega)]
  simp only []
  rw [if_neg (show ¬ (¬(leNat (slice data 2 4) = 1 ∨ leNat (slice data 2 4) = 2) ∨
    leNat (slice data 4 6) < 1) by push_neg; exact ⟨htype, by omega⟩)]
  simp only [h6, h7, h10, h12, h14, h18, ok_bind]
  rw [if_pos (show leNat (slice data 18 22) + leNat (slice data 14 18) > data.length
    by omega)]

/-- A 22-byte icon-chunk payload declaring size 255 at offset 22. -/
def iconOverflow : List Nat :=
  [0, 0, 2, 0, 1, 0] ++ [1, 1, 0, 0, 0, 0, 0, 0, 255, 0, 0, 0, 22, 0, 0, 0]

/-- Witness for C9 (amended) at `iconOverflow`. -/
theorem icon_chunk_overflow_dropped_witness :
    22 ≤ iconOverflow.length ∧
    iconOverflow.length < leNat (slice iconOverflow 18 22) + leNat (slice iconOverflow 14 18) ∧
    parse_icon_chunk codec0 iconOverflow = .ok none :=
  ⟨by decide, by decide,
    icon_chunk_overflow_dropped codec0 iconOverflow (by decide) (by decide) (by decide)
      (by decide)⟩

/-- C9 counterexample: `curOverflow` is a `.cur` file whose single directory
entry has `payloadOffset + payloadSize = 122`, exceeding the 46-byte buffer,
yet `parse_cur_file` does not fail: it silently truncates the payload slice
and the decode succeeds.  The claimed `FormatError` on offset/size overflow
does not exist in `parse_cur_file`. -/
theorem cur_no_overflow_check_cex :
    curOverflow.length < leNat (slice curOverflow 18 22) + leNat (slice curOverflow 14 18) ∧
    exceptIsOk (parse_cur_file codec0 curOverflow) = true := by decide

lemma unpackU32_of_le {data : List Nat} {off : Nat} (h : off + 4 ≤ data.length) :
    unpackU32 data off = .ok (leNat (slice data off (off + 4))) := by
  simp only [unpackU32, unpackExact, if_pos h]

lemma unpackU16_of_le {data : List Nat} {off : Nat} (h : off + 2 ≤ data.length) :
    unpackU16 data off = .ok (leNat (slice data off (off + 2))) := by
  simp only [unpackU16, unpackExact, if_pos h]

lemma unpackI32_of_le {data : List Nat} {off : Nat} (h : off + 4 ≤ data.length) :
    unpackI32 data off = .ok (toI32 (leNat (slice data off (off + 4)))) := by
  simp only [unpackI32, unpackU32_of_le h, ok_bind]

lemma row_bound {hs H S len y x c : Nat} (hfit : hs + H * S ≤ len)
    (hy : y < H) (hx : x * c + c ≤ S) :
    hs + (H - 1 - y) * S + x * c + c ≤ len := by
  have h1 : (H - 1 - y) * S ≤ (H - 1) * S := Nat.mul_le_mul_right _ (by omega)
  have h3 : (H - 1) * S + S = H * S := by
    have hH1 : H - 1 + 1 = H := by omega
    calc (H - 1) * S + S = (H - 1 + 1) * S := (Nat.succ_mul _ _).symm
      _ = H * S := by rw [hH1]
  linarith

/-- C4: on a 32-bit DIB payload (header readable, bitCount 32, nonnegative
stored width `W`, pixel area inside the buffer), the decoder produces a
`W × H` image (`H` = |bmpHeight| / 2) whose output row `y` is read from
source row `H - 1 - y` at 4 bytes per pixel with stride `W * 4` (no row
padding), with the stored B,G,R,A bytes swapped into R,G,B,A order. -/
theorem dib32_bottom_up_bgra_swap (codec : Codec) (data : List Nat) (w h hs W H : Nat)
    (hhs : hs = leNat (slice data 0 4))
    (hW : toI32 (leNat (slice data 4 8)) = (W : Int))
    (hH : H = (toI32 (leNat (slice data 8 12))).natAbs / 2)
    (hlen : 20 ≤ data.length)
    (hbit : leNat (slice data 14 16) = 32)
    (hfit : hs + H * (W * 4) ≤ data.length) :
    decode_bmp_cursor codec data w h =
      .ok ⟨W, H, (List.range H).map fun y => (List.range W).map fun x =>
        ⟨data.getD (hs + (H - 1 - y) * (W * 4) + x * 4 + 2) 0,
         data.getD (hs + (H - 1 - y) * (W * 4) + x * 4 + 1) 0,
         data.getD (hs + (H - 1 - y) * (W * 4) + x * 4) 0,
         data.getD (hs + (H - 1 - y) * (W * 4) + x * 4 + 3) 0⟩⟩ := by
  subst hhs hH
  have hpix : ∀ y ∈ List.range ((toI32 (leNat (slice data 8 12))).natAbs / 2),
      mapME (fun x => bgraPixelAt data (leNat (slice data 0 4) +
          ((toI32 (leNat (slice data 8 12))).natAbs / 2 - 1 - y) * (W * 4) + x * 4))
        (List.range W) =
      .ok ((List.range W).map fun x =>
        ⟨data.getD (leNat (slice data 0 4) +
            ((toI32 (leNat (slice data 8 12))).natAbs / 2 - 1 - y) * (W * 4) + x * 4 + 2) 0,
         data.getD (leNat (slice data 0 4) +
            ((toI32 (leNat (slice data 8 12))).natAbs / 2 - 1 - y) * (W * 4) + x * 4 + 1) 0,
         data.getD (leNat (slice data 0 4) +
            ((toI32 (leNat (slice data 8 12))).natAbs / 2 - 1 - y) * (W * 4) + x * 4) 0,
         data.getD (leNat (slice data 0 4) +
            ((toI32 (leNat (slice data 8 12))).natAbs / 2 - 1 - y) * (W * 4) + x * 4 + 3) 0⟩) := by
    intro y hy
    apply mapME_ok
    intro x hx
    have hy' := List.mem_range.mp hy
    have hx' := List.mem_range.mp hx
    have hbound := row_bound hfit hy' (show x * 4 + 4 ≤ W * 4 by omega)
    simp only [bgraPixelAt, if_pos hbound]
  have hrows := mapME_ok hpix
  unfold decode_bmp_cursor
  rw [unpackU32_of_le (by omega), ok_bind, unpackI32_of_le (by omega), ok_bind,
    unpackI32_of_le (by omega), ok_bind, unpackU16_of_le (by omega), ok_bind,
    unpackU16_of_le (by omega), ok_bind, unpackU32_of_le (by omega), ok_bind]
  simp only [hW, Int.toNat_natCast]
  rw [if_pos hbit]
  rw [hrows, ok_bind]
  rw [if_neg (by exact not_lt.mpr (Int.natCast_nonneg W))]

/-- Witness for C4 at `dib32Sample` (1×1, header size 20, stored pixel
`B,G,R,A = 9,8,7,6`): decoded as `R,G,B,A = 7,8,9,6`. -/
theorem dib32_bottom_up_bgra_swap_witness :
    decode_bmp_cursor codec0 dib32Sample 1 1 =
      .ok ⟨1, 1, (List.range 1).map fun y => (List.range 1).map fun x =>
        ⟨dib32Sample.getD (20 + (1 - 1 - y) * (1 * 4) + x * 4 + 2) 0,
         dib32Sample.getD (20 + (1 - 1 - y) * (1 * 4) + x * 4 + 1) 0,
         dib32Sample.getD (20 + (1 - 1 - y) * (1 * 4) + x * 4) 0,
         dib32Sample.getD (20 + (1 - 1 - y) * (1 * 4) + x * 4 + 3) 0⟩⟩ :=
  dib32_bottom_up_bgra_swap codec0 dib32Sample 1 1 20 1 1 (by decide) (by decide)
    (by decide) (by decide) (by decide) (by decide)

/-- C5: on a 24-bit DIB payload (header readable, bitCount 24, nonnegative
stored width `W`, color area inside the buffer), every output pixel carries
the B,G,R bytes of its padded color row (stride `RS = (W*3+3)/4*4`, read
bottom-to-top) and alpha 255, except that alpha is 0 exactly where the
AND-mask bit — located after the color rows at the independent stride
`AR = (W+31)/32*4` — is set.  A mask of all-zero bytes therefore yields
alpha 255 everywhere, an all-ones mask alpha 0 everywhere. -/
theorem dib24_mask_alpha (codec : Codec) (data : List Nat) (w h hs W H RS AR AO : Nat)
    (hhs : hs = leNat (slice data 0 4))
    (hW : toI32 (leNat (slice data 4 8)) = (W : Int))
    (hH : H = (toI32 (leNat (slice data 8 12))).natAbs / 2)
    (hRS : RS = (W * 3 + 3) / 4 * 4)
    (hAR : AR = (W + 31) / 32 * 4)
    (hAO : AO = hs + RS * H)
    (hlen : 20 ≤ data.length)
    (hbit : leNat (slice data 14 16) = 24)
    (hfit : hs + H * RS ≤ data.length) :
    decode_bmp_cursor codec data w h =
      .ok ⟨W, H, (List.range H).map fun y => (List.range W).map fun x =>
        ⟨data.getD (hs + (H - 1 - y) * RS + x * 3 + 2) 0,
         data.getD (hs + (H - 1 - y) * RS + x * 3 + 1) 0,
         data.getD (hs + (H - 1 - y) * RS + x * 3) 0,
         if andMaskBit data AO AR H y x then 0 else 255⟩⟩ := by
  subst hhs hH hRS hAR hAO
  have hstride : W * 3 ≤ (W * 3 + 3) / 4 * 4 := by omega
  have hpix : ∀ y ∈ List.range ((toI32 (leNat (slice data 8 12))).natAbs / 2),
      mapME (fun x => bgrPixelAt data (leNat (slice data 0 4) +
          ((toI32 (leNat (slice data 8 12))).natAbs / 2 - 1 - y) * ((W * 3 + 3) / 4 * 4) +
          x * 3))
        (List.range W) =
      .ok ((List.range W).map fun x =>
        (⟨data.getD (leNat (slice data 0 4) +
            ((toI32 (leNat (slice data 8 12))).natAbs / 2 - 1 - y) * ((W * 3 + 3) / 4 * 4) +
            x * 3 + 2) 0,
          data.getD (leNat (slice data 0 4) +
            ((toI32 (leNat (slice data 8 12))).natAbs / 2 - 1 - y) * ((W * 3 + 3) / 4 * 4) +
            x * 3 + 1) 0,
          data.getD (leNat (slice data 0 4) +
            ((toI32 (leNat (slice data 8 12))).natAbs / 2 - 1 - y) * ((W * 3 + 3) / 4 * 4) +
            x * 3) 0,
          255⟩ : RGBA)) := by
    intro y hy
    apply mapME_ok
    intro x hx
    have hy' := List.mem_range.mp hy
    have hx' := List.mem_range.mp hx
    have hbound := row_bound hfit hy' (show x * 3 + 3 ≤ (W * 3 + 3) / 4 * 4 by omega)
    simp only [bgrPixelAt, if_pos hbound]
  have hrows := mapME_ok hpix
  unfold decode_bmp_cursor
  rw [unpackU32_of_le (by omega), ok_bind, unpackI32_of_le (by omega), ok_bind,
    unpackI32_of_le (by omega), ok_bind, unpackU16_of_le (by omega), ok_bind,
    unpackU16_of_le (by omega), ok_bind, unpackU32_of_le (by omega), ok_bind]
  simp only [hW, Int.toNat_natCast]
  rw [if_neg (show ¬ leNat (slice data 14 16) = 32 by omega)]
  rw [if_pos hbit]
  rw [hrows, ok_bind]
  rw [if_neg (by exact not_lt.mpr (Int.natCast_nonneg W))]
  refine congrArg _ ?_
  refine congrArg _ ?_
  unfold applyAndMask
  refine List.map_congr_left ?_
  intro y hy
  refine List.map_congr_left ?_
  intro x hx
  have hy' := List.mem_range.mp hy
  have hx' := List.mem_range.mp hx
  simp only [getD_map_range _ hy', getD_map_range _ hx']
  by_cases hb : andMaskBit data
      (leNat (slice data 0 4) +
        (W * 3 + 3) / 4 * 4 * ((toI32 (leNat (slice data 8 12))).natAbs / 2))
      ((W + 31) / 32 * 4) ((toI32 (leNat (slice data 8 12))).natAbs / 2) y x
  · simp [hb]
  · simp [hb]

/-- Witness for C5 at `dib24Sample` (1×1, color bytes `9,8,7`, AND mask byte
`0x80`, so the single pixel's mask bit is set and its alpha is 0). -/
theorem dib24_mask_alpha_witness :
    decode_bmp_cursor codec0 dib24Sample 1 1 =
      .ok ⟨1, 1, (List.range 1).map fun y => (List.range 1).map fun x =>
        ⟨dib24Sample.getD (20 + (1 - 1 - y) * 4 + x * 3 + 2) 0,
         dib24Sample.getD (20 + (1 - 1 - y) * 4 + x * 3 + 1) 0,
         dib24Sample.getD (20 + (1 - 1 - y) * 4 + x * 3) 0,
         if andMaskBit dib24Sample 24 4 1 y x then 0 else 255⟩⟩ :=
  dib24_mask_alpha codec0 dib24Sample 1 1 20 1 1 4 4 24 (by decide) (by decide)
    (by decide) (by decide) (by decide) (by decide) (by decide) (by decide) (by decide)

/-- C6: on a DIB payload whose bit count is neither 32 nor 24, when the
generic external bitmap decode of the BMP-wrapped payload fails for any
reason, the decoder returns the solid-magenta alpha-128 placeholder sized to
the directory-declared width and height instead of propagating the error. -/
theorem dib_fallback_placeholder (codec : Codec) (data : List Nat) (w h : Nat)
    (msg : String)
    (hlen : 20 ≤ data.length)
    (hbit32 : leNat (slice data 14 16) ≠ 32)
    (hbit24 : leNat (slice data 14 16) ≠ 24)
    (hp1 : data.length + 14 < 2 ^ 32)
    (hp2 : 14 + leNat (slice data 0 4) < 2 ^ 32)
    (hfail : codec.decodeBMP ([66, 77] ++ packLE4 (data.length + 14) ++ [0, 0, 0, 0] ++
        packLE4 (14 + leNat (slice data 0 4)) ++ data) = .error msg) :
    decode_bmp_cursor codec data w h = .ok (placeholderImg w h) := by
  unfold decode_bmp_cursor
  rw [unpackU32_of_le (by omega), ok_bind, unpackI32_of_le (by omega), ok_bind,
    unpackI32_of_le (by omega), ok_bind, unpackU16_of_le (by omega), ok_bind,
    unpackU16_of_le (by omega), ok_bind, unpackU32_of_le (by omega), ok_bind]
  rw [if_neg hbit32, if_neg hbit24]
  rw [show packU32 (data.length + 14) = .ok (packLE4 (data.length + 14)) by
    simp only [packU32, if_pos hp1], ok_bind]
  rw [show packU32 (14 + leNat (slice data 0 4)) =
      .ok (packLE4 (14 + leNat (slice data 0 4))) by
    simp only [packU32, if_pos hp2], ok_bind]
  rw [hfail]

/-- Witness for C6 at `dibOddSample` (bitCount 0) with the always-failing
codec: the decoder returns the 3×2 placeholder. -/
theorem dib_fallback_placeholder_witness :
    decode_bmp_cursor codec0 dibOddSample 3 2 = .ok (placeholderImg 3 2) :=
  dib_fallback_placeholder codec0 dibOddSample 3 2 "bmp codec" (by decide) (by decide)
    (by decide) (by decide) (by decide) (by decide)

/-- C2 (amended): an `icon` chunk rejected by `parse_icon_chunk`'s explicit
validity checks (payload shorter than 6 bytes, type not 1/2, count 0, or
entry offset+size exceeding the chunk payload) returns no frame and is
silently dropped from the frame sequence; under the assumption that no icon
chunk raises, the frame list is exactly the successfully parsed frames, and
the subsequent assembly fails (with the empty-frames `FormatError`) exactly
when that list is empty.  (Icon chunks whose parse raises — e.g. a 6-byte
payload with valid type/count — abort the whole decode instead; see the
counterexample.) -/
theorem fram_list_drops_rejected_icons (codec : Codec) (data : List Nat) (st : AniState)
    (h : ∀ c ∈ riffChunksFrom data 0, c.id = iconId →
      exceptIsOk (parse_icon_chunk codec c.payload) = true) :
    parse_fram_list codec data =
      .ok ((riffChunksFrom data 0).filterMap fun c =>
        if c.id = iconId then
          match parse_icon_chunk codec c.payload with
          | .ok o => o
          | .error _ => none
        else none) ∧
    (exceptIsOk (assembleAni codec st) = true ↔ st.frames ≠ []) := by
  constructor
  · have hmap : ∀ c ∈ riffChunksFrom data 0,
        (if c.id = iconId then parse_icon_chunk codec c.payload else .ok none) =
        .ok (if c.id = iconId then
          match parse_icon_chunk codec c.payload with
          | .ok o => o
          | .error _ => none
        else none) := by
      intro c hc
      by_cases hid : c.id = iconId
      · rw [if_pos hid, if_pos hid]
        cases hp : parse_icon_chunk codec c.payload with
        | ok o => rfl
        | error e => exact absurd (h c hc hid) (by simp [hp, exceptIsOk])
      · rw [if_neg hid, if_neg hid]
    unfold parse_fram_list
    rw [mapME_ok hmap, ok_bind]
    refine congrArg _ ?_
    rw [List.filterMap_map]
    rfl
  · cases hf : st.frames with
    | nil => simp [assembleAni, exceptIsOk, hf]
    | cons a l => simp [assembleAni, exceptIsOk, hf]

set_option maxRecDepth 8000 in
/-- Witness for C2 (amended) at the single-good-icon `fram` list `framGood`
and the initial (empty-frames) state. -/
theorem fram_list_drops_rejected_icons_witness :
    (∀ c ∈ riffChunksFrom framGood 0, c.id = iconId →
      exceptIsOk (parse_icon_chunk codec0 c.payload) = true) ∧
    (parse_fram_list codec0 framGood =
      .ok ((riffChunksFrom framGood 0).filterMap fun c =>
        if c.id = iconId then
          match parse_icon_chunk codec0 c.payload with
          | .ok o => o
          | .error _ => none
        else none) ∧
      (exceptIsOk (assembleAni codec0 aniState0) = true ↔ aniState0.frames ≠ [])) :=
  ⟨by decide, fram_list_drops_rejected_icons codec0 framGood aniState0 (by decide)⟩

set_option maxRecDepth 8000 in
/-- C2 counterexample: `aniBad` holds one `icon` chunk that parses fine and a
second 6-byte `icon` chunk with valid type and count, whose internal parse
raises IndexError (Python `data[6]`).  Contrary to the claim, the failing
chunk is not dropped: the whole ANI decode aborts with the error, even
though dropping it would have left a non-empty frame sequence. -/
theorem ani_icon_parse_error_aborts_cex :
    exceptIsOk (parse_icon_chunk codec0 iconGood) = true ∧
    parse_ani_file codec0 aniBad = .error "IndexError" := by decide

/-- C3: on every successful ANI decode, if the final rate table is non-empty
then `frameDurationSeconds` is the arithmetic mean of its entries divided by
60, and otherwise it is `displayRate / 60` with `displayRate = 10` when no
valid `anih` chunk was recorded. -/
theorem ani_frame_duration (codec : Codec) (data : List Nat)
    (hok : exceptIsOk (parse_ani_file codec data) = true) :
    ∃ res st, parse_ani_file codec data = .ok res ∧
      processChunks codec aniState0 (riffChunksFrom data 12) = .ok st ∧
      res.frameDuration =
        match st.rate.getD [] with
        | [] => ((st.anih.elim 10 Anih.displayRate : Nat) : ℚ) / 60
        | rate0 :: rest =>
          ((((rate0 :: rest).sum : Nat) : ℚ) / (((rate0 :: rest).length : Nat) : ℚ)) / 60 := by
  cases hp : parse_ani_file codec data with
  | error e => rw [hp] at hok; exact absurd hok (by simp [exceptIsOk])
  | ok res =>
    obtain ⟨st, hst, ha⟩ := parse_ani_inv hp
    exact ⟨res, st, rfl, hst, assemble_frameDuration ha⟩

set_option maxRecDepth 8000 in
/-- Witness for C3 at `aniRate3` (3 frames, rate table `[6,6,6]`, so the
duration is `(6+6+6)/3/60 = 1/10` seconds). -/
theorem ani_frame_duration_witness :
    exceptIsOk (parse_ani_file codec0 aniRate3) = true ∧
    ∃ res st, parse_ani_file codec0 aniRate3 = .ok res ∧
      processChunks codec0 aniState0 (riffChunksFrom aniRate3 12) = .ok st ∧
      res.frameDuration =
        match st.rate.getD [] with
        | [] => ((st.anih.elim 10 Anih.displayRate : Nat) : ℚ) / 60
        | rate0 :: rest =>
          ((((rate0 :: rest).sum : Nat) : ℚ) / (((rate0 :: rest).length : Nat) : ℚ)) / 60 :=
  ⟨by decide, ani_frame_duration codec0 aniRate3 (by decide)⟩

lemma parse_rate_chunk_zero (data : List Nat) : parse_rate_chunk data 0 = [] := rfl

lemma processChunks_rate_empty (codec : Codec) :
    ∀ (cs : List Chunk) (st st' : AniState),
      noRateAfterValidAnih cs st.anih.isSome = true →
      (st.rate = none ∨ st.rate = some []) →
      processChunks codec st cs = .ok st' →
      st'.rate = none ∨ st'.rate = some [] := by
  intro cs
  induction cs with
  | nil =>
    intro st st' _ hrate hp
    injection hp with h'
    subst h'
    exact hrate
  | cons c cs ih =>
    intro st st' horder hrate hp
    simp only [processChunks] at hp
    obtain ⟨st1, hstep, hrest⟩ := bind_ok hp
    unfold processChunk at hstep
    by_cases h1 : c.id = anihId
    · rw [if_pos h1] at hstep
      injection hstep with h'
      subst h'
      refine ih ⟨parse_anih_chunk c.payload, st.rate, st.frames⟩ st' ?_ hrate hrest
      simp only [noRateAfterValidAnih, if_pos h1] at horder
      exact horder
    · by_cases h2 : c.id = rateId
      · rw [if_neg h1, if_pos h2] at hstep
        injection hstep with h'
        subst h'
        simp only [noRateAfterValidAnih, if_neg h1, if_pos h2, Bool.and_eq_true,
          Bool.not_eq_true'] at horder
        obtain ⟨hseen, hrest'⟩ := horder
        have hanih : st.anih = none := Option.not_isSome_iff_eq_none.mp (by simp [hseen])
        refine ih ⟨st.anih, some (parse_rate_chunk c.payload
          (match st.anih with | some a => a.numFrames | none => 0)), st.frames⟩ st'
          ?_ ?_ hrest
        · exact hrest'
        · right
          simp only [hanih, parse_rate_chunk_zero]
      · rw [if_neg h1, if_neg h2] at hstep
        have horder' : noRateAfterValidAnih cs st.anih.isSome = true := by
          simp only [noRateAfterValidAnih, if_neg h1, if_neg h2] at horder
          exact horder
        by_cases h3 : c.id = listId
        · rw [if_pos h3] at hstep
          by_cases h4 : c.payload.take 4 = framId
          · rw [if_pos h4] at hstep
            obtain ⟨fs, -, hstep⟩ := bind_ok hstep
            injection hstep with h'
            subst h'
            exact ih ⟨st.anih, st.rate, fs⟩ st' horder' hrate hrest
          · rw [if_neg h4] at hstep
            injection hstep with h'
            subst h'
            exact ih st st' horder' hrate hrest
        · rw [if_neg h3] at hstep
          injection hstep with h'
          subst h'
          exact ih st st' horder' hrate hrest

/-- C10: if every `rate` chunk of the top-level stream is walked before any
valid (≥ 36 byte) `anih` chunk — in particular when no valid `anih` exists —
then the recorded rate table is empty (the rate entries are parsed against an
expected frame count of 0 and ignored), and a successful decode falls back to
`displayRate / 60` even though a `rate` chunk is present. -/
theorem rate_before_anih_ignored (codec : Codec) (data : List Nat)
    (hord : noRateAfterValidAnih (riffChunksFrom data 12) false = true)
    (hok : exceptIsOk (parse_ani_file codec data) = true) :
    ∃ res st, parse_ani_file codec data = .ok res ∧
      processChunks codec aniState0 (riffChunksFrom data 12) = .ok st ∧
      (st.rate = none ∨ st.rate = some []) ∧
      res.frameDuration = ((st.anih.elim 10 Anih.displayRate : Nat) : ℚ) / 60 := by
  cases hp : parse_ani_file codec data with
  | error e => rw [hp] at hok; exact absurd hok (by simp [exceptIsOk])
  | ok res =>
    obtain ⟨st, hst, ha⟩ := parse_ani_inv hp
    have hrate : st.rate = none ∨ st.rate = some [] :=
      processChunks_rate_empty codec _ aniState0 st hord (Or.inl rfl) hst
    refine ⟨res, st, rfl, hst, hrate, ?_⟩
    have hd := assemble_frameDuration ha
    rcases hrate with h | h <;> rw [h] at hd <;> simpa using hd

set_option maxRecDepth 8000 in
/-- Witness for C10 at `aniRateFirst`, whose `rate` chunk precedes its valid
`anih` chunk (displayRate 25). -/
theorem rate_before_anih_ignored_witness :
    noRateAfterValidAnih (riffChunksFrom aniRateFirst 12) false = true ∧
    exceptIsOk (parse_ani_file codec0 aniRateFirst) = true ∧
    ∃ res st, parse_ani_file codec0 aniRateFirst = .ok res ∧
      processChunks codec0 aniState0 (riffChunksFrom aniRateFirst 12) = .ok st ∧
      (st.rate = none ∨ st.rate = some []) ∧
      res.frameDuration = ((st.anih.elim 10 Anih.displayRate : Nat) : ℚ) / 60 :=
  ⟨by decide, by decide, rate_before_anih_ignored codec0 aniRateFirst (by decide) (by decide)⟩

end CurConvert
